import Mathlib

/-!
Shallow embedding of the posting pipeline of the x-automation repository
(`src/app.py`, `src/run_job.py`).

The pipeline publishes a queued multi-part post as a reply-thread: it fetches
the most recent unposted document (`get_new_tweet`), deduplicates its parts
against the published-parts history, optionally resolves an image to a media
handle (`get_image_from_gridfs`, `prepare_post_image`), publishes each part
with up to 3 attempts (`post_tweet`), and finally marks the document posted.

Modelling conventions:
* External effects are driven by explicit environments: `env : Nat → Resp`
  gives the outcome of the n-th `create_tweet` call of the run; `MediaEnv`
  gives the blob-store / legacy-auth / media-upload outcomes; a `Bool` flag
  models store connectivity for the fetch.
* Python truthiness is modelled explicitly: a tweet id is a `Nat` and the id
  is "valid" iff it is nonzero (`if new_tweet and tweet_id:`); image bytes
  are a `Nat` token, truthy iff nonzero; an image reference is truthy iff it
  is `some s` with `s ≠ ""`.
* A raised-and-caught exception becomes an explicit value: `Resp.exn` for a
  raising `create_tweet` call, `RunError` for the exceptions caught by the
  catch-all at the end of `post_tweet`, and `Except` for functions whose
  callers could observe a raise.
* Every create-post call is recorded in a trace (`Call`), including the part
  index, the text, the reply-to id, the attached media id and the response.
-/

namespace TwitterBot

/-- Outcome of one `client.create_tweet` call, as observed by the `while`
loop in `post_tweet` (src/app.py:146-183): the call raises (`exn`), returns a
falsy object (`noneObj`, which makes `new_tweet.data` raise), or returns a
truthy object whose `data.id` field is the given `Nat` (`ok`, with id `0`
standing for a falsy/unusable id). -/
inductive Resp where
  | exn : Resp
  | noneObj : Resp
  | ok : Nat → Resp
deriving DecidableEq

/-- One recorded create-post call: which part (by index in the `parts` list)
it was for, the text sent, the `in_reply_to_tweet_id` argument, the
`media_ids` attachment (at most one media id), and the response. -/
structure Call where
  partIdx : Nat
  text : String
  replyTo : Option Nat
  media : Option Nat
  resp : Resp
deriving DecidableEq

/-- The mutable locals of the publishing loop in `post_tweet`
(src/app.py:134-183): the number of create-post calls made so far (used to
index the response environment), the still-held `media_id`, and
`last_tweet_id`. -/
structure PubState where
  callCount : Nat
  mediaId : Option Nat
  lastTweetId : Option Nat
deriving DecidableEq

/-- The `while attempt < max_attempts and not post_success` loop for a single
part (src/app.py:146-183), with `fuel` = remaining attempts.  Returns the
calls made for this part, the updated state, and the part's `post_success`
flag.  On a truthy response the held media id is cleared
(src/app.py:154-155), and on a truthy response with a valid (nonzero) id the
part succeeds and `last_tweet_id` is updated (src/app.py:160-165); otherwise
the attempt is retried until the fuel runs out. -/
def tryPart (env : Nat → Resp) (idx : Nat) (text : String) :
    Nat → PubState → List Call × PubState × Bool
  | 0, st => ([], st, false)
  | fuel + 1, st =>
    match env st.callCount with
    | Resp.exn =>
      let r := tryPart env idx text fuel ⟨st.callCount + 1, st.mediaId, st.lastTweetId⟩
      (⟨idx, text, st.lastTweetId, st.mediaId, Resp.exn⟩ :: r.1, r.2.1, r.2.2)
    | Resp.noneObj =>
      let r := tryPart env idx text fuel ⟨st.callCount + 1, st.mediaId, st.lastTweetId⟩
      (⟨idx, text, st.lastTweetId, st.mediaId, Resp.noneObj⟩ :: r.1, r.2.1, r.2.2)
    | Resp.ok i =>
      let m2 := if st.mediaId.isSome then none else st.mediaId
      if i ≠ 0 then
        ([⟨idx, text, st.lastTweetId, st.mediaId, Resp.ok i⟩],
          ⟨st.callCount + 1, m2, some i⟩, true)
      else
        let r := tryPart env idx text fuel ⟨st.callCount + 1, m2, st.lastTweetId⟩
        (⟨idx, text, st.lastTweetId, st.mediaId, Resp.ok i⟩ :: r.1, r.2.1, r.2.2)

/-- The `for part in tweet_data["parts"]` loop (src/app.py:141-183).  Each
part gets up to 3 attempts via `tryPart`; the loop does NOT stop when a part
fails, it simply moves on to the next part.  The third component threads the
`post_success` variable: `none` models the variable being unbound (no loop
iteration ran), `some b` the flag left by the most recent part. -/
def postParts (env : Nat → Resp) :
    Nat → PubState → Option Bool → List String → List Call × PubState × Option Bool
  | _, st, ps, [] => ([], st, ps)
  | idx, st, _, p :: rest =>
    let r1 := tryPart env idx p 3 st
    let r2 := postParts env (idx + 1) r1.2.1 (some r1.2.2) rest
    (r1.1 ++ r2.1, r2.2.1, r2.2.2)

/-- A document of the `tweets_zico` collection (the pending-post queue). -/
structure PendingDoc where
  id : Nat
  parts : List String
  posted : Bool
  createdAt : Nat
  imageId : Option String
deriving DecidableEq

/-- The document store: the pending-post collection and the texts of the
`posted_tweets_zico` collection (used only as a text-existence index). -/
structure Store where
  tweets : List PendingDoc
  postedTexts : List String
deriving DecidableEq

/-- `find_one({"posted": False}, sort=[("created_at_datetime", -1)])`
(src/app.py:104-106): among the unposted documents, the one with the largest
`createdAt`, earliest-in-collection on ties; `none` if every document is
posted. -/
def findNextPending : List PendingDoc → Option PendingDoc
  | [] => none
  | d :: ds =>
    if d.posted then findNextPending ds
    else
      match findNextPending ds with
      | none => some d
      | some e => if e.createdAt > d.createdAt then some e else some d

/-- The dedup loop of `get_new_tweet` (src/app.py:112-123): scan the parts in
order and return the first part whose text already exists in the
published-parts history, `none` if no part matches. -/
def dedupScan (postedTexts : List String) : List String → Option String
  | [] => none
  | p :: rest => if p ∈ postedTexts then some p else dedupScan postedTexts rest

/-- `update_one({"_id": i}, {"$set": {"posted": True}})`: set `posted` on the
first document with the given id. -/
def updateFirst : List PendingDoc → Nat → List PendingDoc
  | [], _ => []
  | d :: ds, i =>
    if d.id = i then ⟨d.id, d.parts, true, d.createdAt, d.imageId⟩ :: ds
    else d :: updateFirst ds i

/-- The dictionary returned by `get_new_tweet` (src/app.py:125). -/
structure TweetData where
  parts : List String
  tweetId : Nat
  imageId : Option String
deriving DecidableEq

/-- The raw `find_one` query of `get_new_tweet` before the surrounding
`try/except`: it raises (`Except.error`) when the store is unreachable. -/
def fetchNextPendingRaw (avail : Bool) (s : Store) : Except String (Option PendingDoc) :=
  if avail then Except.ok (findNextPending s.tweets) else Except.error "StoreUnavailable"

/-- `get_new_tweet` (src/app.py:101-128).  The whole body is wrapped in
`try/except` that logs and returns `None` (src/app.py:126-128), so the
function never raises: a store failure is absorbed into the same `none`
result as "no pending tweet".  On a dedup match the document is marked
posted and `none` is returned (src/app.py:116-123). -/
def get_new_tweet (avail : Bool) (s : Store) : Except String (Option TweetData × Store) :=
  match fetchNextPendingRaw avail s with
  | Except.error _ => Except.ok (none, s)
  | Except.ok none => Except.ok (none, s)
  | Except.ok (some doc) =>
    match dedupScan s.postedTexts doc.parts with
    | some _ => Except.ok (none, ⟨updateFirst s.tweets doc.id, s.postedTexts⟩)
    | none => Except.ok (some ⟨doc.parts, doc.id, doc.imageId⟩, s)

/-- Environment for the media path: the GridFS lookup result (`none` for a
missing id or a raising read, `some n` for bytes with truthiness token `n`),
whether the legacy v1 auth handshake yields a client, and the media-upload
outcome (`none` models a raising `media_upload`, `some m` a handle). -/
structure MediaEnv where
  gridfs : Option Nat
  authOk : Bool
  uploadResult : Option Nat
deriving DecidableEq

/-- Temporary-storage state: whether this invocation's staged image file
(`/tmp/tweet_<id>.png`) exists. -/
structure FS where
  staged : Bool
deriving DecidableEq

/-- `get_image_from_gridfs` (src/app.py:45-61): returns `None` both when the
id is missing and when the read raises (the `except` at src/app.py:59-61),
otherwise the bytes. -/
def get_image_from_gridfs (menv : MediaEnv) (_imageId : String) : Option Nat :=
  menv.gridfs

/-- `prepare_post_image` (src/app.py:63-99).  A falsy image reference or a
missing/corrupt blob short-circuits to `none` with nothing staged; otherwise
the bytes are staged to the temp file, and the upload block runs under
`try/finally` that removes the staged file on the auth-failure return, on
the successful return, and on an upload exception (which the outer `except`
then converts to `none`). -/
def prepare_post_image (menv : MediaEnv) (imageId : Option String) (fs : FS) :
    Option Nat × FS :=
  match imageId with
  | none => (none, fs)
  | some s =>
    if s ≠ "" then
      match get_image_from_gridfs menv s with
      | none => (none, fs)
      | some imageData =>
        if imageData ≠ 0 then
          if menv.authOk then
            match menv.uploadResult with
            | some m => (some m, ⟨false⟩)
            | none => (none, ⟨false⟩)
          else (none, ⟨false⟩)
        else (none, fs)
    else (none, fs)

/-- The exceptions that reach the catch-all `except` at src/app.py:194-195:
the `NameError` from reading `post_success` after a zero-iteration loop, the
explicit raise at src/app.py:186-188, or a raise out of the fetch. -/
inductive RunError where
  | nameError : RunError
  | publishFailed : RunError
  | fetchError : RunError
deriving DecidableEq

/-- What one invocation of `post_tweet` did: the create-post calls it made,
the resulting store, the resulting temp-file state, and the exception caught
by its catch-all handler, if any (`post_tweet` itself never raises). -/
structure RunOutcome where
  calls : List Call
  store : Store
  fsOut : FS
  caught : Option RunError
deriving DecidableEq

/-- `post_tweet` (src/app.py:130-195).  Fetch, resolve the image (the
`"image_id" in tweet_data` test is always true for a dict built at
src/app.py:125), run the per-part loop, then read `post_success`: unbound
(`none`) raises a `NameError`; `some false` triggers the raise at
src/app.py:186; `some true` marks the document posted.  Every raise is
caught by the handler at src/app.py:194, so the function always returns. -/
def post_tweet (env : Nat → Resp) (menv : MediaEnv) (avail : Bool) (s : Store)
    (fs : FS) : RunOutcome :=
  match get_new_tweet avail s with
  | Except.error _ => ⟨[], s, fs, some RunError.fetchError⟩
  | Except.ok (none, s1) => ⟨[], s1, fs, none⟩
  | Except.ok (some td, s1) =>
    match (postParts env 0 ⟨0, (prepare_post_image menv td.imageId fs).1, none⟩
        none td.parts).2.2 with
    | none =>
      ⟨(postParts env 0 ⟨0, (prepare_post_image menv td.imageId fs).1, none⟩
          none td.parts).1,
        s1, (prepare_post_image menv td.imageId fs).2, some RunError.nameError⟩
    | some false =>
      ⟨(postParts env 0 ⟨0, (prepare_post_image menv td.imageId fs).1, none⟩
          none td.parts).1,
        s1, (prepare_post_image menv td.imageId fs).2, some RunError.publishFailed⟩
    | some true =>
      ⟨(postParts env 0 ⟨0, (prepare_post_image menv td.imageId fs).1, none⟩
          none td.parts).1,
        ⟨updateFirst s1.tweets td.tweetId, s1.postedTexts⟩,
        (prepare_post_image menv td.imageId fs).2, none⟩

/-- `auth_v2` (src/app.py:211-226): yields a client or, on a caught error,
`None`. -/
def auth_v2 (authOk : Bool) : Option Unit :=
  if authOk then some () else none

/-- `job` (src/app.py:229-241): authenticate, and if a client was obtained,
run `post_tweet`, re-raising anything it raises.  Since `post_tweet` catches
everything internally, `job` only ever returns `Except.ok`. -/
def job (authOk : Bool) (env : Nat → Resp) (menv : MediaEnv) (avail : Bool)
    (s : Store) (fs : FS) : Except RunError (Option RunOutcome) :=
  match auth_v2 authOk with
  | none => Except.ok none
  | some _ => Except.ok (some (post_tweet env menv avail s fs))

/-- One entry of the `warnings.warnings_occurred` list recorded by the
`showwarning` hook in `src/run_job.py:18-21`: whether its message is a
`ResourceWarning`, and whether the lowercased message text contains
"unclosed". -/
structure WarningMsg where
  isResourceWarning : Bool
  mentionsUnclosed : Bool
deriving DecidableEq

/-- The per-warning test of the loop at run_job.py:10:
`isinstance(warning.message, ResourceWarning) and "unclosed" in
str(warning.message).lower()`. -/
def unclosedSessionWarning (w : WarningMsg) : Bool :=
  w.isResourceWarning && w.mentionsUnclosed

/-- The `for warning in warnings.warnings_occurred` loop of run_job.py:9-11:
raise a `RuntimeError` at the first recorded unclosed-session
`ResourceWarning`, otherwise fall through. -/
def warningsCheck : List WarningMsg → Except String Unit
  | [] => Except.ok ()
  | w :: rest =>
    if unclosedSessionWarning w then
      Except.error "Detected unclosed client session - forcing program termination"
    else warningsCheck rest

/-- `main` of `src/run_job.py` (lines 6-15), with the warnings recorded
during the run passed in explicitly (whether the interpreter emits an
unclosed-session `ResourceWarning` is an external fact of the run): exit
code 1 when `job` raises or when the warning scan raises its
`RuntimeError` (both land in the `except` at run_job.py:13-15, which calls
`sys.exit(1)`), exit code 0 otherwise. -/
def run_job_exit (authOk : Bool) (env : Nat → Resp) (menv : MediaEnv)
    (avail : Bool) (s : Store) (fs : FS) (ws : List WarningMsg) : Nat :=
  match job authOk env menv avail s fs with
  | Except.error _ => 1
  | Except.ok _ =>
    match warningsCheck ws with
    | Except.error _ => 1
    | Except.ok _ => 0

/-- The id carried by a response, `none` when the call did not return a
truthy object. -/
def respId : Resp → Option Nat
  | Resp.ok i => some i
  | _ => none

/-- Whether the response object was truthy (the guard of the media-clearing
statement at src/app.py:154). -/
def truthyResp : Resp → Bool
  | Resp.ok _ => true
  | _ => false

/-- Whether the call published its part: truthy response with a valid
(nonzero) id (src/app.py:162). -/
def succeededCall (c : Call) : Bool :=
  match c.resp with
  | Resp.ok i => i != 0
  | _ => false

/-- Whether the call carried the media attachment and got a truthy response,
i.e. the call that consumes the held media id (src/app.py:150-155). -/
def consumes (c : Call) : Bool :=
  c.media.isSome && truthyResp c.resp

/-- Once the media-consuming call has happened, every later call of the run
carries no media. -/
def MediaRel (a b : Call) : Prop :=
  consumes a = true → b.media = none

/-- The call trace produced by the per-part loop when every create-post call
returns a truthy object whose id is `f` of the call index: one call per
part, the first carrying the initially held state, each later one replying
to the id returned for the previous part. -/
def succCalls (f : Nat → Nat) : List String → Nat → Nat → Option Nat → Option Nat → List Call
  | [], _, _, _, _ => []
  | p :: rest, idx, cc, m, l =>
    ⟨idx, p, l, m, Resp.ok (f cc)⟩ :: succCalls f rest (idx + 1) (cc + 1) none (some (f cc))

/-- The final loop state on the same all-successful runs. -/
def succFinal (f : Nat → Nat) : List String → PubState → PubState
  | [], st => st
  | _ :: rest, st => succFinal f rest ⟨st.callCount + 1, none, some (f st.callCount)⟩

/-- An initially empty temp directory. -/
def fs0 : FS := ⟨false⟩

/-- Media environment of a post without a usable image. -/
def menv0 : MediaEnv := ⟨none, true, none⟩

/-- Media environment where the blob resolves and the upload yields media
handle 7. -/
def menvImg : MediaEnv := ⟨some 1, true, some 7⟩

/-- Platform environment where every create-post call raises. -/
def envExn : Nat → Resp := fun _ => Resp.exn

/-- Platform environment where every create-post call succeeds, returning
id `n + 1` for the n-th call. -/
def envOk1 : Nat → Resp := fun n => Resp.ok (n + 1)

/-- Platform environment where the first three create-post calls raise and
every later one succeeds with id 1. -/
def env3Fail : Nat → Resp := fun n => if n < 3 then Resp.exn else Resp.ok 1

/-- A two-part pending post without an image. -/
def doc1 : PendingDoc := ⟨1, ["A", "B"], false, 0, none⟩

/-- A store holding only `doc1`, with an empty published history. -/
def s1 : Store := ⟨[doc1], []⟩

/-- The pending post and store of the C5 evaluation: a two-part post with an
image reference. -/
def doc5 : PendingDoc := ⟨3, ["A", "B"], false, 0, some "img"⟩

/-- A store holding only `doc5`. -/
def s5 : Store := ⟨[doc5], []⟩

/-- The pending post and store of the C2 witness: its only part is already
in the published history. -/
def doc2 : PendingDoc := ⟨1, ["X"], false, 0, none⟩

/-- A store holding `doc2` and a published history containing its text. -/
def s2 : Store := ⟨[doc2], ["X"]⟩

/-- The pending post and store of the C4 counterexample: a single part whose
every publish attempt raises. -/
def doc4 : PendingDoc := ⟨1, ["A"], false, 0, none⟩

/-- A store holding only `doc4`. -/
def s4 : Store := ⟨[doc4], []⟩

/-- The store of the C7 counterexample: one pending document that would be
fetched if the store were reachable. -/
def s7 : Store := ⟨[⟨1, ["A"], false, 0, none⟩], []⟩

/-- The pending post and store of the C9 witness: one part, an image id that
does not resolve. -/
def doc9 : PendingDoc := ⟨4, ["A"], false, 0, some "img"⟩

/-- A store holding only `doc9`. -/
def s9 : Store := ⟨[doc9], []⟩

/-- Media environment whose blob lookup fails. -/
def menvMissing : MediaEnv := ⟨none, true, some 7⟩

/-- The pending post and store of the C10 witness: an empty parts list and
an image reference. -/
def doc10 : PendingDoc := ⟨2, [], false, 5, some "img"⟩

/-- A store holding only `doc10`, with an unrelated published text. -/
def s10 : Store := ⟨[doc10], ["X"]⟩

/-- When no media id is held, the attempt loop attaches no media and still
holds none afterwards. -/
lemma tryPart_media_none (env : Nat → Resp) (idx : Nat) (t : String) :
    ∀ (fuel : Nat) (st : PubState), st.mediaId = none →
      (∀ c ∈ (tryPart env idx t fuel st).1, c.media = none) ∧
      (tryPart env idx t fuel st).2.1.mediaId = none := by
  intro fuel
  induction fuel with
  | zero =>
    rintro ⟨cc, m, l⟩ h
    refine ⟨?_, ?_⟩
    · intro c hc
      simp [tryPart] at hc
    · simpa [tryPart] using h
  | succ n ih =>
    rintro ⟨cc, m, l⟩ h
    simp only at h
    subst h
    simp only [tryPart]
    cases henv : env cc with
    | exn =>
      have hr := ih ⟨cc + 1, none, l⟩ rfl
      refine ⟨?_, hr.2⟩
      intro c hc
      rcases List.mem_cons.mp hc with rfl | hc
      · rfl
      · exact hr.1 c hc
    | noneObj =>
      have hr := ih ⟨cc + 1, none, l⟩ rfl
      refine ⟨?_, hr.2⟩
      intro c hc
      rcases List.mem_cons.mp hc with rfl | hc
      · rfl
      · exact hr.1 c hc
    | ok i =>
      simp only [Option.isSome_none, Bool.false_eq_true, if_false]
      by_cases hi : i = 0
      · subst hi
        simp only [ne_eq, not_true_eq_false, if_false]
        have hr := ih ⟨cc + 1, none, l⟩ rfl
        refine ⟨?_, hr.2⟩
        intro c hc
        rcases List.mem_cons.mp hc with rfl | hc
        · rfl
        · exact hr.1 c hc
      · simp only [ne_eq, hi, not_false_eq_true, if_true]
        refine ⟨?_, by trivial⟩
        intro c hc
        rcases List.mem_cons.mp hc with rfl | hc
        · rfl
        · simp at hc

/-- When no media id is held at the start of the per-part loop, no later
call of the run carries media, and none is held at the end. -/
lemma postParts_media_none (env : Nat → Resp) :
    ∀ (parts : List String) (idx : Nat) (st : PubState) (ps : Option Bool),
      st.mediaId = none →
      (∀ c ∈ (postParts env idx st ps parts).1, c.media = none) ∧
      (postParts env idx st ps parts).2.1.mediaId = none := by
  intro parts
  induction parts with
  | nil =>
    intro idx st ps h
    refine ⟨?_, by simpa [postParts] using h⟩
    intro c hc
    simp [postParts] at hc
  | cons p rest ih =>
    intro idx st ps h
    have h1 := tryPart_media_none env idx p 3 st h
    have h2 := ih (idx + 1) (tryPart env idx p 3 st).2.1 (some (tryPart env idx p 3 st).2.2) h1.2
    refine ⟨?_, ?_⟩
    · intro c hc
      simp only [postParts] at hc
      rcases List.mem_append.mp hc with hc | hc
      · exact h1.1 c hc
      · exact h2.1 c hc
    · simpa only [postParts] using h2.2

/-- A trace all of whose calls carry no media is trivially pairwise
consume-respecting. -/
lemma pairwise_mediaRel_of_none {l : List Call} (h : ∀ c ∈ l, c.media = none) :
    l.Pairwise MediaRel := by
  induction l with
  | nil => exact List.Pairwise.nil
  | cons c cs ih =>
    refine List.pairwise_cons.mpr ⟨?_, ih fun d hd => h d (List.mem_cons_of_mem c hd)⟩
    intro d hd _
    exact h d (List.mem_cons_of_mem c hd)

/-- The attempt loop yields a consume-respecting trace, and if some call in
it consumed the media id then no media id is held afterwards. -/
lemma tryPart_pairwise (env : Nat → Resp) (idx : Nat) (t : String) :
    ∀ (fuel : Nat) (st : PubState),
      (tryPart env idx t fuel st).1.Pairwise MediaRel ∧
      ((∃ c ∈ (tryPart env idx t fuel st).1, consumes c = true) →
        (tryPart env idx t fuel st).2.1.mediaId = none) := by
  intro fuel
  induction fuel with
  | zero =>
    rintro ⟨cc, m, l⟩
    refine ⟨by simp [tryPart], ?_⟩
    rintro ⟨c, hc, -⟩
    simp [tryPart] at hc
  | succ n ih =>
    rintro ⟨cc, m, l⟩
    simp only [tryPart]
    cases henv : env cc with
    | exn =>
      have hr := ih ⟨cc + 1, m, l⟩
      refine ⟨?_, ?_⟩
      · refine List.pairwise_cons.mpr ⟨?_, hr.1⟩
        intro d _ hcon
        simp [consumes, truthyResp] at hcon
      · rintro ⟨c, hc, hcon⟩
        rcases List.mem_cons.mp hc with rfl | hc
        · simp [consumes, truthyResp] at hcon
        · exact hr.2 ⟨c, hc, hcon⟩
    | noneObj =>
      have hr := ih ⟨cc + 1, m, l⟩
      refine ⟨?_, ?_⟩
      · refine List.pairwise_cons.mpr ⟨?_, hr.1⟩
        intro d _ hcon
        simp [consumes, truthyResp] at hcon
      · rintro ⟨c, hc, hcon⟩
        rcases List.mem_cons.mp hc with rfl | hc
        · simp [consumes, truthyResp] at hcon
        · exact hr.2 ⟨c, hc, hcon⟩
    | ok i =>
      cases m with
      | none =>
        simp only [Option.isSome_none, Bool.false_eq_true, if_false]
        by_cases hi : i = 0
        · subst hi
          simp only [ne_eq, not_true_eq_false, if_false]
          have hnone := tryPart_media_none env idx t n ⟨cc + 1, none, l⟩ rfl
          refine ⟨?_, ?_⟩
          · refine List.pairwise_cons.mpr ⟨?_, pairwise_mediaRel_of_none hnone.1⟩
            intro d hd _
            exact hnone.1 d hd
          · intro _
            exact hnone.2
        · simp only [ne_eq, hi, not_false_eq_true, if_true]
          refine ⟨?_, fun _ => by trivial⟩
          exact List.pairwise_cons.mpr ⟨by intro d hd; simp at hd, List.Pairwise.nil⟩
      | some a =>
        simp only [Option.isSome_some, if_true]
        by_cases hi : i = 0
        · subst hi
          simp only [ne_eq, not_true_eq_false, if_false]
          have hnone := tryPart_media_none env idx t n ⟨cc + 1, none, l⟩ rfl
          refine ⟨?_, ?_⟩
          · refine List.pairwise_cons.mpr ⟨?_, pairwise_mediaRel_of_none hnone.1⟩
            intro d hd _
            exact hnone.1 d hd
          · intro _
            exact hnone.2
        · simp only [ne_eq, hi, not_false_eq_true, if_true]
          refine ⟨?_, fun _ => by trivial⟩
          exact List.pairwise_cons.mpr ⟨by intro d hd; simp at hd, List.Pairwise.nil⟩

/-- The whole per-part loop yields a consume-respecting trace, and if some
call in it consumed the media id then no media id is held afterwards. -/
lemma postParts_pairwise (env : Nat → Resp) :
    ∀ (parts : List String) (idx : Nat) (st : PubState) (ps : Option Bool),
      (postParts env idx st ps parts).1.Pairwise MediaRel ∧
      ((∃ c ∈ (postParts env idx st ps parts).1, consumes c = true) →
        (postParts env idx st ps parts).2.1.mediaId = none) := by
  intro parts
  induction parts with
  | nil =>
    intro idx st ps
    refine ⟨by simp [postParts], ?_⟩
    rintro ⟨c, hc, -⟩
    simp [postParts] at hc
  | cons p rest ih =>
    intro idx st ps
    have h1 := tryPart_pairwise env idx p 3 st
    have h2 := ih (idx + 1) (tryPart env idx p 3 st).2.1 (some (tryPart env idx p 3 st).2.2)
    have hcross : (∃ c ∈ (tryPart env idx p 3 st).1, consumes c = true) →
        ∀ c ∈ (postParts env (idx + 1) (tryPart env idx p 3 st).2.1
          (some (tryPart env idx p 3 st).2.2) rest).1, c.media = none := by
      intro hex
      exact (postParts_media_none env rest (idx + 1) _ _ (h1.2 hex)).1
    refine ⟨?_, ?_⟩
    · simp only [postParts]
      refine List.pairwise_append.mpr ⟨h1.1, h2.1, ?_⟩
      intro a ha b hb hcon
      exact hcross ⟨a, ha, hcon⟩ b hb
    · rintro ⟨c, hc, hcon⟩
      simp only [postParts] at hc ⊢
      rcases List.mem_append.mp hc with hc | hc
      · exact (postParts_media_none env rest (idx + 1) _ _ (h1.2 ⟨c, hc, hcon⟩)).2
      · exact h2.2 ⟨c, hc, hcon⟩

/-- On an environment whose every response is truthy with a valid id, a part
succeeds on its first attempt. -/
lemma tryPart_allOk (f : Nat → Nat) (idx : Nat) (t : String) (fuel : Nat) (st : PubState)
    (hf : f st.callCount ≠ 0) :
    tryPart (fun n => Resp.ok (f n)) idx t (fuel + 1) st
      = ([⟨idx, t, st.lastTweetId, st.mediaId, Resp.ok (f st.callCount)⟩],
          ⟨st.callCount + 1, none, some (f st.callCount)⟩, true) := by
  obtain ⟨cc, m, l⟩ := st
  simp only at hf
  cases m with
  | none => simp [tryPart, hf]
  | some a => simp [tryPart, hf]

/-- Closed form of the per-part loop on an all-successful environment. -/
lemma postParts_allOk (f : Nat → Nat) (hf : ∀ n, f n ≠ 0) :
    ∀ (parts : List String) (idx : Nat) (st : PubState) (ps : Option Bool),
      postParts (fun n => Resp.ok (f n)) idx st ps parts
        = (succCalls f parts idx st.callCount st.mediaId st.lastTweetId,
            succFinal f parts st,
            if parts.isEmpty then ps else some true) := by
  intro parts
  induction parts with
  | nil =>
    intro idx st ps
    simp [postParts, succCalls, succFinal]
  | cons p rest ih =>
    intro idx st ps
    have h3 : (3 : Nat) = 2 + 1 := rfl
    simp only [postParts, h3, tryPart_allOk f idx p 2 st (hf st.callCount)]
    rw [ih (idx + 1) ⟨st.callCount + 1, none, some (f st.callCount)⟩ (some true)]
    simp [succCalls, succFinal]

/-- `succCalls` produces exactly one call per part. -/
lemma succCalls_length (f : Nat → Nat) :
    ∀ (parts : List String) (idx cc : Nat) (m l : Option Nat),
      (succCalls f parts idx cc m l).length = parts.length := by
  intro parts
  induction parts with
  | nil => intro idx cc m l; simp [succCalls]
  | cons p rest ih => intro idx cc m l; simp [succCalls, ih]

/-- The first call of a nonempty all-successful trace replies to the
initially held last-id. -/
lemma succCalls_get_zero (f : Nat → Nat) (parts : List String) (idx cc : Nat)
    (m l : Option Nat) (h : 0 < (succCalls f parts idx cc m l).length) :
    ((succCalls f parts idx cc m l).get ⟨0, h⟩).replyTo = l := by
  cases parts with
  | nil => simp [succCalls] at h
  | cons p rest => rfl

/-- In an all-successful trace, every call after the first replies to the id
returned by the call before it. -/
lemma succCalls_chain (f : Nat → Nat) :
    ∀ (parts : List String) (idx cc : Nat) (m l : Option Nat) (k : Nat)
      (h : k + 1 < (succCalls f parts idx cc m l).length),
      ((succCalls f parts idx cc m l).get ⟨k + 1, h⟩).replyTo
        = respId ((succCalls f parts idx cc m l).get ⟨k, Nat.lt_of_succ_lt h⟩).resp := by
  intro parts
  induction parts with
  | nil => intro idx cc m l k h; simp [succCalls] at h
  | cons p rest ih =>
    intro idx cc m l k h
    cases k with
    | zero =>
      have h0 : 0 < (succCalls f rest (idx + 1) (cc + 1) none (some (f cc))).length := by
        have hln := h
        simp only [succCalls, List.length_cons] at hln
        omega
      have hz := succCalls_get_zero f rest (idx + 1) (cc + 1) none (some (f cc)) h0
      simp only [succCalls, List.get_cons_succ, List.get_cons_zero]
      rw [hz]
      rfl
    | succ k2 =>
      have h2 : k2 + 1 < (succCalls f rest (idx + 1) (cc + 1) none (some (f cc))).length := by
        have hln := h
        simp only [succCalls, List.length_cons] at hln
        omega
      have hih := ih (idx + 1) (cc + 1) none (some (f cc)) k2 h2
      simp only [succCalls, List.get_cons_succ]
      exact hih

/-- The fetched document is one of the stored documents. -/
lemma findNextPending_mem : ∀ (ds : List PendingDoc) (d : PendingDoc),
    findNextPending ds = some d → d ∈ ds := by
  intro ds
  induction ds with
  | nil => intro d h; simp [findNextPending] at h
  | cons a rest ih =>
    intro d h
    simp only [findNextPending] at h
    by_cases hp : a.posted
    · rw [if_pos hp] at h
      exact List.mem_cons_of_mem a (ih d h)
    · rw [if_neg hp] at h
      cases hr : findNextPending rest with
      | none =>
        rw [hr] at h
        obtain rfl := Option.some.inj h
        exact List.mem_cons_self a rest
      | some e =>
        by_cases hc : e.createdAt > a.createdAt
        · simp only [hr, hc, if_true] at h
          obtain rfl := Option.some.inj h
          exact List.mem_cons_of_mem a (ih _ hr)
        · simp only [hr, hc, if_false] at h
          obtain rfl := Option.some.inj h
          exact List.mem_cons_self a rest

/-- If some part's text occurs in the published history, the dedup scan
finds a match. -/
lemma dedupScan_isSome_of_mem (texts : List String) :
    ∀ (parts : List String) (p : String), p ∈ parts → p ∈ texts →
      ∃ q, dedupScan texts parts = some q := by
  intro parts
  induction parts with
  | nil => intro p hp _; simp at hp
  | cons a rest ih =>
    intro p hp hmem
    by_cases ha : a ∈ texts
    · exact ⟨a, by simp [dedupScan, ha]⟩
    · rcases List.mem_cons.mp hp with rfl | hp
      · exact absurd hmem ha
      · obtain ⟨q, hq⟩ := ih p hp hmem
        exact ⟨q, by simp [dedupScan, ha, hq]⟩

/-- Marking a present id sets `posted` on a document with that id. -/
lemma updateFirst_posted (i : Nat) :
    ∀ (ds : List PendingDoc), (∃ d ∈ ds, d.id = i) →
      ∃ e ∈ updateFirst ds i, e.id = i ∧ e.posted = true := by
  intro ds
  induction ds with
  | nil => rintro ⟨d, hd, -⟩; simp at hd
  | cons a rest ih =>
    rintro ⟨d, hd, hid⟩
    by_cases ha : a.id = i
    · refine ⟨⟨a.id, a.parts, true, a.createdAt, a.imageId⟩, ?_, ha, rfl⟩
      simp only [updateFirst, if_pos ha]
      exact List.mem_cons_self _ _
    · rcases List.mem_cons.mp hd with rfl | hd
      · exact absurd hid ha
      · obtain ⟨e, he, hei, hep⟩ := ih ⟨d, hd, hid⟩
        refine ⟨e, ?_, hei, hep⟩
        simp only [updateFirst, if_neg ha]
        exact List.mem_cons_of_mem a he

/-- `get_new_tweet` on an available store with a pending document and no
dedup match returns the document's data unchanged. -/
lemma get_new_tweet_no_dedup (s : Store) (doc : PendingDoc)
    (hfind : findNextPending s.tweets = some doc)
    (hdedup : dedupScan s.postedTexts doc.parts = none) :
    get_new_tweet true s = Except.ok (some ⟨doc.parts, doc.id, doc.imageId⟩, s) := by
  simp [get_new_tweet, fetchNextPendingRaw, hfind, hdedup]

/-- `get_new_tweet` on an available store with a pending document and a
dedup match marks the document posted and returns `none`. -/
lemma get_new_tweet_dedup (s : Store) (doc : PendingDoc) (q : String)
    (hfind : findNextPending s.tweets = some doc)
    (hdedup : dedupScan s.postedTexts doc.parts = some q) :
    get_new_tweet true s
      = Except.ok (none, ⟨updateFirst s.tweets doc.id, s.postedTexts⟩) := by
  simp [get_new_tweet, fetchNextPendingRaw, hfind, hdedup]

/-- C6: in every run, once the media handle has been attached to a
create-post call that published a part (truthy response with a valid id),
every later create-post call of the same run carries no media: the handle is
consumed exactly once. -/
theorem C6_media_consumed_once (env : Nat → Resp) (menv : MediaEnv) (avail : Bool)
    (s : Store) (fs : FS) :
    (post_tweet env menv avail s fs).calls.Pairwise
      (fun a b => (a.media.isSome && succeededCall a) = true → b.media = none) := by
  have himp : ∀ a b : Call, MediaRel a b →
      ((a.media.isSome && succeededCall a) = true → b.media = none) := by
    intro a b hmr ha
    simp only [Bool.and_eq_true] at ha
    apply hmr
    simp only [consumes, Bool.and_eq_true]
    refine ⟨ha.1, ?_⟩
    cases hr : a.resp with
    | exn =>
      have h2 := ha.2
      simp [succeededCall, hr] at h2
    | noneObj =>
      have h2 := ha.2
      simp [succeededCall, hr] at h2
    | ok i => simp [truthyResp, hr]
  unfold post_tweet
  cases hg : get_new_tweet avail s with
  | error e => simp
  | ok v =>
    obtain ⟨otd, s1⟩ := v
    cases otd with
    | none => simp
    | some td =>
      have hpw := (postParts_pairwise env td.parts 0
        ⟨0, (prepare_post_image menv td.imageId fs).1, none⟩ none).1
      dsimp only
      split <;> exact List.Pairwise.imp (fun {a b} => himp a b) hpw

/-- C1, evaluated at the failing input (pending post `doc1`, first three
create-post calls raise, the fourth succeeds): after part 0 fails all 3
attempts, the code still attempts part 1 (four calls, part indices
[0,0,0,1]) and, because the last part succeeded, marks the post posted and
raises nothing — the claimed abort does not happen. -/
theorem C1_no_abort_after_exhausted_part :
    (post_tweet env3Fail menv0 true s1 fs0).calls.map Call.partIdx = [0, 0, 0, 1] ∧
    (post_tweet env3Fail menv0 true s1 fs0).calls.map Call.resp
      = [Resp.exn, Resp.exn, Resp.exn, Resp.ok 1] ∧
    (∃ d ∈ (post_tweet env3Fail menv0 true s1 fs0).store.tweets,
      d.id = 1 ∧ d.posted = true) ∧
    (post_tweet env3Fail menv0 true s1 fs0).caught = none := by
  decide

/-- C5, evaluated at the failing input (post with image, the three attempts
for part 0 all raise, the next call succeeds): the media handle survives
part 0's exhaustion, and the call that publishes part 1 carries it — a part
other than the first is published with the media attachment. -/
theorem C5_media_attached_to_later_part :
    (post_tweet env3Fail menvImg true s5 fs0).calls.map (fun c => (c.partIdx, c.media))
      = [(0, some 7), (0, some 7), (0, some 7), (1, some 7)] ∧
    ∃ c ∈ (post_tweet env3Fail menvImg true s5 fs0).calls,
      c.partIdx ≠ 0 ∧ c.media = some 7 ∧ succeededCall c = true := by
  decide

/-- C2: if any part of the fetched pending post already occurs in the
published history, the run makes zero create-post calls and the post is
marked posted. -/
theorem C2_dedup_skips_whole_post (env : Nat → Resp) (menv : MediaEnv) (s : Store)
    (fs : FS) (doc : PendingDoc) (p : String)
    (hfind : findNextPending s.tweets = some doc)
    (hp : p ∈ doc.parts) (hmatch : p ∈ s.postedTexts) :
    (post_tweet env menv true s fs).calls = [] ∧
    ∃ d ∈ (post_tweet env menv true s fs).store.tweets,
      d.id = doc.id ∧ d.posted = true := by
  obtain ⟨q, hq⟩ := dedupScan_isSome_of_mem s.postedTexts doc.parts p hp hmatch
  have hg := get_new_tweet_dedup s doc q hfind hq
  unfold post_tweet
  rw [hg]
  refine ⟨rfl, ?_⟩
  exact updateFirst_posted doc.id s.tweets
    ⟨doc, findNextPending_mem s.tweets doc hfind, rfl⟩

/-- Closed witness for C2. -/
theorem C2_dedup_skips_whole_post_witness :
    findNextPending s2.tweets = some doc2 ∧ "X" ∈ doc2.parts ∧ "X" ∈ s2.postedTexts ∧
    ((post_tweet envExn menv0 true s2 fs0).calls = [] ∧
      ∃ d ∈ (post_tweet envExn menv0 true s2 fs0).store.tweets,
        d.id = doc2.id ∧ d.posted = true) :=
  ⟨by decide, by decide, by decide,
    C2_dedup_skips_whole_post envExn menv0 s2 fs0 doc2 "X"
      (by decide) (by decide) (by decide)⟩

/-- C3: when every create-post call of the run succeeds with a valid id
(reading "publish fully succeeds" as no attempt failing), a fetched
pending post with N parts and no dedup match produces exactly N create-post
calls, the first with no reply-to id and each later one replying to the id
returned by the previous call; no error is raised. -/
theorem C3_thread_chain (f : Nat → Nat) (menv : MediaEnv) (s : Store) (fs : FS)
    (doc : PendingDoc) (out : RunOutcome)
    (hf : ∀ n, f n ≠ 0)
    (hfind : findNextPending s.tweets = some doc)
    (hdedup : dedupScan s.postedTexts doc.parts = none)
    (hne : doc.parts ≠ [])
    (hout : out = post_tweet (fun n => Resp.ok (f n)) menv true s fs) :
    out.calls.length = doc.parts.length ∧
    out.caught = none ∧
    (∀ h0 : 0 < out.calls.length, (out.calls.get ⟨0, h0⟩).replyTo = none) ∧
    ∀ (k : Nat) (h : k + 1 < out.calls.length),
      (out.calls.get ⟨k + 1, h⟩).replyTo
        = respId (out.calls.get ⟨k, Nat.lt_of_succ_lt h⟩).resp := by
  subst hout
  have hie : doc.parts.isEmpty = false := by
    cases hparts : doc.parts with
    | nil => exact absurd hparts hne
    | cons a l => rfl
  have hg := get_new_tweet_no_dedup s doc hfind hdedup
  have hun : post_tweet (fun n => Resp.ok (f n)) menv true s fs
      = ⟨succCalls f doc.parts 0 0 (prepare_post_image menv doc.imageId fs).1 none,
          ⟨updateFirst s.tweets doc.id, s.postedTexts⟩,
          (prepare_post_image menv doc.imageId fs).2, none⟩ := by
    unfold post_tweet
    rw [hg]
    dsimp only
    rw [postParts_allOk f hf doc.parts 0
      ⟨0, (prepare_post_image menv doc.imageId fs).1, none⟩ none, hie]
    rfl
  rw [hun]
  dsimp only
  refine ⟨succCalls_length f doc.parts 0 0 _ none, rfl, ?_, ?_⟩
  · intro h0
    exact succCalls_get_zero f doc.parts 0 0 _ none h0
  · intro k h
    exact succCalls_chain f doc.parts 0 0 _ none k h

/-- Closed witness for C3: the two-part post `doc1` published against an
all-successful platform environment. -/
theorem C3_thread_chain_witness :
    (∀ n : Nat, n + 1 ≠ 0) ∧
    findNextPending s1.tweets = some doc1 ∧
    dedupScan s1.postedTexts doc1.parts = none ∧
    doc1.parts ≠ [] ∧
    ((post_tweet (fun n => Resp.ok (n + 1)) menv0 true s1 fs0).calls.length
        = doc1.parts.length ∧
      (post_tweet (fun n => Resp.ok (n + 1)) menv0 true s1 fs0).caught = none ∧
      (∀ h0 : 0 < (post_tweet (fun n => Resp.ok (n + 1)) menv0 true s1 fs0).calls.length,
        ((post_tweet (fun n => Resp.ok (n + 1)) menv0 true s1 fs0).calls.get
          ⟨0, h0⟩).replyTo = none) ∧
      ∀ (k : Nat)
        (h : k + 1 < (post_tweet (fun n => Resp.ok (n + 1)) menv0 true s1 fs0).calls.length),
        ((post_tweet (fun n => Resp.ok (n + 1)) menv0 true s1 fs0).calls.get
            ⟨k + 1, h⟩).replyTo
          = respId ((post_tweet (fun n => Resp.ok (n + 1)) menv0 true s1 fs0).calls.get
              ⟨k, Nat.lt_of_succ_lt h⟩).resp) :=
  ⟨fun n => Nat.succ_ne_zero n, by decide, by decide, by decide,
    C3_thread_chain (fun n => n + 1) menv0 s1 fs0 doc1 _ (fun n => Nat.succ_ne_zero n)
      (by decide) (by decide) (by decide) rfl⟩

/-- The exit code of `run_job` is decided entirely by the warning scan:
`job` never raises (both `post_tweet` and `auth_v2` catch their own
exceptions), so `main` reaches the scan of recorded warnings, exits 1 iff
some unclosed-session `ResourceWarning` was recorded, and 0 otherwise. -/
lemma run_job_exit_eq_warning_flag (authOk : Bool) (env : Nat → Resp)
    (menv : MediaEnv) (avail : Bool) (s : Store) (fs : FS) :
    ∀ ws : List WarningMsg,
      run_job_exit authOk env menv avail s fs ws
        = if ws.any unclosedSessionWarning then 1 else 0 := by
  have hjob : ∃ r, job authOk env menv avail s fs = Except.ok r := by
    cases authOk with
    | false => exact ⟨none, rfl⟩
    | true => exact ⟨some (post_tweet env menv avail s fs), rfl⟩
  obtain ⟨r, hr⟩ := hjob
  intro ws
  unfold run_job_exit
  rw [hr]
  induction ws with
  | nil => rfl
  | cons w rest ih =>
    by_cases hw : unclosedSessionWarning w = true
    · simp [warningsCheck, hw]
    · simp only [Bool.not_eq_true] at hw
      simpa [warningsCheck, hw, List.any_cons] using ih

/-- C4 counterexample: when the (last) part exhausts its retries, the
publish-exhausted error is raised and immediately caught by `post_tweet`'s
own catch-all; the post stays unmarked and `job` returns normally, so
nothing reaches the orchestrator's error path.  The exit status of this run
does not depend on the publish failure at all: it is 0 when no
unclosed-session `ResourceWarning` was recorded and 1 when one was — the
claimed failure-driven non-zero exit does not happen. -/
theorem C4_error_swallowed_cex :
    (post_tweet envExn menv0 true s4 fs0).caught = some RunError.publishFailed ∧
    (∃ d ∈ (post_tweet envExn menv0 true s4 fs0).store.tweets,
      d.id = 1 ∧ d.posted = false) ∧
    job true envExn menv0 true s4 fs0
      = Except.ok (some (post_tweet envExn menv0 true s4 fs0)) ∧
    run_job_exit true envExn menv0 true s4 fs0 [] = 0 ∧
    run_job_exit true envExn menv0 true s4 fs0 [⟨true, true⟩] = 1 :=
  ⟨by decide, by decide, rfl, rfl, rfl⟩

/-- C4 amended: `job` always returns normally (every pipeline exception is
caught inside `post_tweet` or `auth_v2`, so nothing escalates past the
Publisher), and the process exit status is decided solely by `run_job`'s
independent unclosed-session warning scan — 1 iff such a warning was
recorded, irrespective of the publish outcome. -/
theorem C4_exit_ignores_publish_failure (authOk : Bool) (env : Nat → Resp)
    (menv : MediaEnv) (avail : Bool) (s : Store) (fs : FS) (ws : List WarningMsg) :
    (∃ r, job authOk env menv avail s fs = Except.ok r) ∧
    run_job_exit authOk env menv avail s fs ws
      = if ws.any unclosedSessionWarning then 1 else 0 := by
  refine ⟨?_, run_job_exit_eq_warning_flag authOk env menv avail s fs ws⟩
  cases authOk with
  | false => exact ⟨none, rfl⟩
  | true => exact ⟨some (post_tweet env menv avail s fs), rfl⟩

/-- C7 counterexample: with the store unreachable, the raw fetch raises
`StoreUnavailable`, yet `get_new_tweet` returns the same `none` result as
"no pending tweet" — the failure is absorbed inside the fetch routine, and
the surrounding run completes as a no-op with nothing raised. -/
theorem C7_store_error_absorbed_cex :
    fetchNextPendingRaw false s7 = Except.error "StoreUnavailable" ∧
    get_new_tweet false s7 = Except.ok (none, s7) ∧
    (post_tweet envExn menv0 false s7 fs0).caught = none ∧
    (post_tweet envExn menv0 false s7 fs0).store = s7 ∧
    (post_tweet envExn menv0 false s7 fs0).calls = [] :=
  ⟨rfl, rfl, rfl, rfl, rfl⟩

/-- C7 amended: a store connectivity failure during the fetch is caught
inside `get_new_tweet`, which logs and returns `none` with the store
untouched; the caller observes a graceful no-op run, with no retry and no
propagated error. -/
theorem C7_fetch_failure_is_noop (env : Nat → Resp) (menv : MediaEnv) (s : Store)
    (fs : FS) :
    get_new_tweet false s = Except.ok (none, s) ∧
    post_tweet env menv false s fs = ⟨[], s, fs, none⟩ :=
  ⟨rfl, rfl⟩

/-- C8: starting from an empty temp directory, the staged image file never
survives `prepare_post_image`: on every exit path — no image, missing blob,
falsy bytes, auth failure, upload failure, or successful upload — the staged
file has been removed when the function returns. -/
theorem C8_staged_file_removed (menv : MediaEnv) (imageId : Option String) :
    (prepare_post_image menv imageId ⟨false⟩).2.staged = false := by
  cases imageId with
  | none => rfl
  | some str =>
    by_cases hs : str ≠ ""
    · cases hgf : menv.gridfs with
      | none => simp [prepare_post_image, get_image_from_gridfs, hs, hgf]
      | some d =>
        by_cases hd : d ≠ 0
        · cases hauth : menv.authOk with
          | false =>
            simp [prepare_post_image, get_image_from_gridfs, hs, hgf, hd, hauth]
          | true =>
            cases hup : menv.uploadResult with
            | none =>
              simp [prepare_post_image, get_image_from_gridfs, hs, hgf, hd, hauth, hup]
            | some m =>
              simp [prepare_post_image, get_image_from_gridfs, hs, hgf, hd, hauth, hup]
        · simp [prepare_post_image, get_image_from_gridfs, hs, hgf, hd]
    · simp [prepare_post_image, hs]

/-- C9: when the image id does not resolve in blob storage, the media
resolver returns `none` without touching the temp directory, and a post
whose every create-post call succeeds still publishes all parts normally,
each call carrying no media id, and is marked posted. -/
theorem C9_missing_image_text_only (menv : MediaEnv) (f : Nat → Nat) (s : Store)
    (fs : FS) (doc : PendingDoc)
    (hgf : menv.gridfs = none)
    (hf : ∀ n, f n ≠ 0)
    (hfind : findNextPending s.tweets = some doc)
    (hdedup : dedupScan s.postedTexts doc.parts = none)
    (hne : doc.parts ≠ []) :
    prepare_post_image menv doc.imageId fs = (none, fs) ∧
    (post_tweet (fun n => Resp.ok (f n)) menv true s fs).caught = none ∧
    (post_tweet (fun n => Resp.ok (f n)) menv true s fs).calls.length
      = doc.parts.length ∧
    (∀ c ∈ (post_tweet (fun n => Resp.ok (f n)) menv true s fs).calls,
      c.media = none) ∧
    ∃ d ∈ (post_tweet (fun n => Resp.ok (f n)) menv true s fs).store.tweets,
      d.id = doc.id ∧ d.posted = true := by
  have hprep : prepare_post_image menv doc.imageId fs = (none, fs) := by
    cases him : doc.imageId with
    | none => rfl
    | some str =>
      by_cases hs : str ≠ ""
      · simp [prepare_post_image, get_image_from_gridfs, hgf, hs]
      · simp [prepare_post_image, hs]
  have hie : doc.parts.isEmpty = false := by
    cases hparts : doc.parts with
    | nil => exact absurd hparts hne
    | cons a l => rfl
  have hg := get_new_tweet_no_dedup s doc hfind hdedup
  have hun : post_tweet (fun n => Resp.ok (f n)) menv true s fs
      = ⟨succCalls f doc.parts 0 0 none none,
          ⟨updateFirst s.tweets doc.id, s.postedTexts⟩, fs, none⟩ := by
    unfold post_tweet
    rw [hg]
    dsimp only
    rw [hprep]
    dsimp only
    rw [postParts_allOk f hf doc.parts 0 ⟨0, none, none⟩ none, hie]
    rfl
  have hmedia : ∀ c ∈ succCalls f doc.parts 0 0 none none, c.media = none := by
    have hm := (postParts_media_none (fun n => Resp.ok (f n)) doc.parts 0
      ⟨0, none, none⟩ none rfl).1
    rw [postParts_allOk f hf doc.parts 0 ⟨0, none, none⟩ none] at hm
    exact fun c hc => hm c hc
  rw [hun]
  dsimp only
  exact ⟨hprep, rfl, succCalls_length f doc.parts 0 0 none none, hmedia,
    updateFirst_posted doc.id s.tweets
      ⟨doc, findNextPending_mem s.tweets doc hfind, rfl⟩⟩

/-- Closed witness for C9. -/
theorem C9_missing_image_text_only_witness :
    menvMissing.gridfs = none ∧
    (∀ n : Nat, n + 1 ≠ 0) ∧
    findNextPending s9.tweets = some doc9 ∧
    dedupScan s9.postedTexts doc9.parts = none ∧
    doc9.parts ≠ [] ∧
    (prepare_post_image menvMissing doc9.imageId fs0 = (none, fs0) ∧
      (post_tweet (fun n => Resp.ok (n + 1)) menvMissing true s9 fs0).caught = none ∧
      (post_tweet (fun n => Resp.ok (n + 1)) menvMissing true s9 fs0).calls.length
        = doc9.parts.length ∧
      (∀ c ∈ (post_tweet (fun n => Resp.ok (n + 1)) menvMissing true s9 fs0).calls,
        c.media = none) ∧
      ∃ d ∈ (post_tweet (fun n => Resp.ok (n + 1)) menvMissing true s9 fs0).store.tweets,
        d.id = doc9.id ∧ d.posted = true) :=
  ⟨rfl, fun n => Nat.succ_ne_zero n, by decide, by decide, by decide,
    C9_missing_image_text_only menvMissing (fun n => n + 1) s9 fs0 doc9 rfl
      (fun n => Nat.succ_ne_zero n) (by decide) (by decide) (by decide)⟩

/-- C10: on a fetched pending post whose parts list is empty, the posting
routine reads the never-assigned `post_success` flag, raising a `NameError`
that its own catch-all absorbs: zero create-post calls are made and the
store is left untouched, so the post is never marked posted. -/
theorem C10_empty_parts_name_error (env : Nat → Resp) (menv : MediaEnv) (s : Store)
    (fs : FS) (doc : PendingDoc)
    (hfind : findNextPending s.tweets = some doc)
    (hempty : doc.parts = []) :
    (post_tweet env menv true s fs).calls = [] ∧
    (post_tweet env menv true s fs).store = s ∧
    (post_tweet env menv true s fs).caught = some RunError.nameError := by
  have hdedup : dedupScan s.postedTexts doc.parts = none := by
    rw [hempty]
    rfl
  have hg := get_new_tweet_no_dedup s doc hfind hdedup
  unfold post_tweet
  rw [hg]
  dsimp only
  rw [hempty]
  exact ⟨rfl, rfl, rfl⟩

/-- Closed witness for C10. -/
theorem C10_empty_parts_name_error_witness :
    findNextPending s10.tweets = some doc10 ∧ doc10.parts = [] ∧
    ((post_tweet envOk1 menvImg true s10 fs0).calls = [] ∧
      (post_tweet envOk1 menvImg true s10 fs0).store = s10 ∧
      (post_tweet envOk1 menvImg true s10 fs0).caught = some RunError.nameError) :=
  ⟨by decide, by decide,
    C10_empty_parts_name_error envOk1 menvImg s10 fs0 doc10 (by decide) (by decide)⟩

end TwitterBot
